import Mathlib

/-!
# Verification of the photo ingestion / export API

A shallow embedding of the core logic of the photo-mapping API
(`api/services/photo_upload.py`, `api/services/photo_processor.py`,
`api/services/export_service.py`, `api/models/export.py`,
`api/routes/photos.py`, `api/services/mongo.py`) together with proofs of
the behavioural properties stated in the specification.

Conventions of the embedding:
* Python floats are modelled as exact rationals (`ℚ`);
* Python `dict.get` / optional values are modelled with `Option`;
* Python truthiness of a float (`0.0` is falsy) is modelled explicitly
  where the source relies on it (`pyTruthyQ`);
* functions that raise `ValueError` are modelled with `Except String`;
* wall-clock timestamps are modelled as natural numbers (seconds).
-/

namespace PhotoAPI

/-- Job status vocabulary, from `models/photo.py` (`class JobStatus`). -/
inductive JobStatus where
  | pending
  | queued
  | processing
  | completed
  | failed
  | cancelled
deriving DecidableEq, Repr

/-- Export format types, from `models/export.py` (`class ExportFormat`). -/
inductive ExportFormat where
  | kml
  | kmz
  | zip
  | photosOnly
deriving DecidableEq, Repr

/-- Ingestion-pipeline status, from `photo_processor.py` (`class ProcessingStatus`). -/
inductive ProcessingStatus where
  | pending
  | processing
  | completed
  | failed
  | retry
deriving DecidableEq, Repr

/-! ## GPS coordinate parsing (`photo_upload.py`) -/

/-- One EXIF GPS angle as a degrees/minutes/seconds triple of rationals. -/
structure DMS where
  deg : ℚ
  min : ℚ
  sec : ℚ
deriving DecidableEq, Repr

/-- The GPS-related EXIF tags consumed by
`PhotoUploadService._parse_gps_coordinates`.  A missing dictionary key is
`none`. -/
structure GpsData where
  gpsLatitude : Option DMS := none
  gpsLatitudeRef : Option String := none
  gpsLongitude : Option DMS := none
  gpsLongitudeRef : Option String := none
  gpsAltitude : Option ℚ := none
  gpsAltitudeRef : Option Nat := none
deriving DecidableEq, Repr

/-- `PhotoUploadService._convert_to_degrees`: a DMS triple as decimal
degrees, `d + m/60 + s/3600`. -/
def convert_to_degrees (v : DMS) : ℚ :=
  v.deg + v.min / 60 + v.sec / 3600

/-- `PhotoUploadService._parse_gps_coordinates`: returns
`(latitude, longitude, altitude)`.  Latitude is computed only when both
`GPSLatitude` and `GPSLatitudeRef` are present, and negated when the
reference is `"S"`; longitude likewise with `"W"`; altitude is negated when
`GPSAltitudeRef == 1` (below sea level). -/
def parse_gps_coordinates (g : GpsData) : Option ℚ × Option ℚ × Option ℚ :=
  let latitude : Option ℚ :=
    match g.gpsLatitude, g.gpsLatitudeRef with
    | some dms, some ref =>
        let l := convert_to_degrees dms
        some (if ref = "S" then -l else l)
    | _, _ => none
  let longitude : Option ℚ :=
    match g.gpsLongitude, g.gpsLongitudeRef with
    | some dms, some ref =>
        let l := convert_to_degrees dms
        some (if ref = "W" then -l else l)
    | _, _ => none
  let altitude : Option ℚ :=
    match g.gpsAltitude with
    | some a => some (if g.gpsAltitudeRef = some 1 then -a else a)
    | none => none
  (latitude, longitude, altitude)

/-! ## File validation (`PhotoUploadService.validate_file`) -/

/-- `PhotoUploadService.__init__`: the keys of `self.supported_formats`. -/
def supported_formats : List String :=
  ["image/jpeg", "image/png", "image/tiff", "image/heic", "application/octet-stream"]

/-- `PhotoUploadService.__init__`: `self.max_file_size = 50 * 1024 * 1024`. -/
def max_file_size : ℕ := 50 * 1024 * 1024

/-- The extension lists of `self.supported_formats`. -/
def supported_extensions (contentType : String) : List String :=
  if contentType = "image/jpeg" then [".jpg", ".jpeg"]
  else if contentType = "image/png" then [".png"]
  else if contentType = "image/tiff" then [".tiff", ".tif"]
  else if contentType = "image/heic" then [".heic", ".heif"]
  else if contentType = "application/octet-stream" then [".heic", ".heif"]
  else []

/-- Result of a successful `validate_file` call (the returned dict; the
`dimensions`/`format` fields come from the decoder and are abstracted). -/
structure ValidationResult where
  valid : Bool
  file_size : ℕ
  content_type : String
deriving DecidableEq, Repr

/-- `PhotoUploadService.validate_file`.  `fileSize` is `len(file_content)`
and `decodesOk` abstracts the external PIL decode-and-verify call (`True`
when `Image.open/verify` succeeds on the bytes).  Raising `ValueError` is
modelled as `Except.error`.  A filename-extension mismatch only logs a
warning and does not affect the outcome. -/
def validate_file (fileSize : ℕ) (_filename : String) (contentType : String)
    (decodesOk : Bool) : Except String ValidationResult :=
  if fileSize > max_file_size then
    .error "File size exceeds maximum"
  else if ¬ (contentType ∈ supported_formats) then
    .error "Unsupported file type"
  else if ¬ decodesOk then
    .error "Invalid or corrupted image file"
  else
    .ok { valid := true, file_size := fileSize, content_type := contentType }

/-! ## Coordinate resolution (`PhotoUploadService.process_upload`) -/

/-- Python truthiness of an optional float: `None` and `0.0` are falsy. -/
def pyTruthyQ : Option ℚ → Bool
  | none => false
  | some x => x ≠ 0

/-- The coordinate-bearing part of the dict returned by
`extract_exif_data`. -/
structure ExifData where
  latitude : Option ℚ := none
  longitude : Option ℚ := none
  altitude : Option ℚ := none
deriving DecidableEq, Repr

/-- The `manual_coordinates` dict argument of `process_upload`
(`latitude / longitude / altitude` dict); each `.get` may
return `None`. -/
structure ManualCoords where
  latitude : Option ℚ := none
  longitude : Option ℚ := none
  altitude : Option ℚ := none
deriving DecidableEq, Repr

/-- The coordinate fields of the `photo_data` dict built by
`process_upload`. -/
structure ResolvedCoords where
  latitude : Option ℚ
  longitude : Option ℚ
  altitude : Option ℚ
  coordinate_source : String
deriving DecidableEq, Repr

/-- The coordinate-determination block of `process_upload`
(`photo_upload.py`, "Determine coordinates (manual override EXIF)"):
`if manual_coordinates: … elif exif_data.get(latitude) and
exif_data.get(longitude): … else` — otherwise the source stays `"none"`.  The `elif`
condition uses Python truthiness, so a coordinate equal to `0.0` does not
count. -/
def resolve_coordinates (manual : Option ManualCoords) (exif : ExifData) :
    ResolvedCoords :=
  match manual with
  | some m => ⟨m.latitude, m.longitude, m.altitude, "manual"⟩
  | none =>
    if pyTruthyQ exif.latitude ∧ pyTruthyQ exif.longitude then
      ⟨exif.latitude, exif.longitude, exif.altitude, "exif"⟩
    else
      ⟨none, none, none, "none"⟩

/-- `PhotoUploadService.validate_coordinates`: range checks; altitude
outside `[-500, 10000]` only logs a warning. -/
def validate_coordinates (latitude longitude : ℚ) (_altitude : Option ℚ) :
    Except String Unit :=
  if ¬ (-90 ≤ latitude ∧ latitude ≤ 90) then
    .error "Latitude is out of valid range (-90 to 90)"
  else if ¬ (-180 ≤ longitude ∧ longitude ≤ 180) then
    .error "Longitude is out of valid range (-180 to 180)"
  else
    .ok ()

/-- The coordinate-resolution and validation steps of
`PhotoUploadService.process_upload` (after `validate_file`,
`calculate_file_hash` and `extract_exif_data` have run): resolve the
coordinates, then validate them when both are present, otherwise raise
`ValueError("No valid GPS coordinates …")`. -/
def process_upload_coords (manual : Option ManualCoords) (exif : ExifData) :
    Except String ResolvedCoords :=
  let r := resolve_coordinates manual exif
  match r.latitude, r.longitude with
  | some lat, some lon => do
      let _ ← validate_coordinates lat lon r.altitude
      .ok r
  | _, _ =>
      .error "No valid GPS coordinates found in EXIF data and no manual coordinates provided"

/-! ## Photo records and the upload route (`routes/photos.py`, `services/mongo.py`) -/

/-- The fields of a stored photo record (`models/photo.py`) that the
verified claims depend on; the remaining metadata fields (urls,
camera info, tags, …) do not influence any claim. -/
structure PhotoRec where
  id : String
  filename : String
  original_filename : String
  hash_md5 : String
deriving DecidableEq, Repr

/-- `MongoPhotoService.get_photos_by_hash`: all records whose `hash_md5`
matches. -/
def get_photos_by_hash (store : List PhotoRec) (h : String) : List PhotoRec :=
  store.filter (fun p => p.hash_md5 = h)

/-- `MongoPhotoService.get_photo`: lookup by record id. -/
def get_photo (store : List PhotoRec) (photoId : String) : Option PhotoRec :=
  store.find? (fun p => p.id = photoId)

/-- `MongoPhotoService.create_photo`: insert a record. -/
def create_photo (store : List PhotoRec) (p : PhotoRec) : List PhotoRec :=
  store ++ [p]

/-- Observable state of the upload/ingestion side: the photos collection,
the ids queued on `PhotoProcessor.processing_queue`, and a log of the
photo ids passed to `update_photo` (the upload route never calls it). -/
structure IngestState where
  store : List PhotoRec
  queue : List String
  update_log : List String
deriving DecidableEq, Repr

/-- Result of the `/photos/upload` route. -/
inductive UploadOutcome where
  | duplicate (photoId : String)
  | queuedJob (jobId : String)
  | uploadError (msg : String)
deriving DecidableEq, Repr

/-- The dedup-then-queue logic of `upload_photo` in `routes/photos.py`
(lines 72–89), after `process_upload` has produced `photo_data`: compute
`hash_md5 = hashFn content` (`calculate_file_hash`, i.e. `hashlib.md5` —
an external deterministic digest passed in as a parameter), look up
`get_photos_by_hash`; on a match return the id of the existing record without
touching the store, the queue or any record; otherwise queue a processing
job. -/
def upload_photo (hashFn : List ℕ → String) (st : IngestState)
    (content : List ℕ) (jobId : String) : UploadOutcome × IngestState :=
  let h := hashFn content
  match get_photos_by_hash st.store h with
  | p :: _ => (.duplicate p.id, st)
  | [] => (.queuedJob jobId, { st with queue := st.queue ++ [jobId] })

/-! ## Ingestion retry state machine (`PhotoProcessor._process_photo_job`) -/

/-- `PhotoProcessor.__init__`: `self.max_retries = 3`. -/
def max_retries : ℕ := 3

/-- `PhotoProcessor.__init__`: `self.retry_delay = 5` seconds. -/
def retry_delay : ℕ := 5

/-- The per-job bookkeeping dict built by `queue_photo_for_processing`. -/
structure ProcJob where
  job_id : String
  retry_count : ℕ
  status : ProcessingStatus
  error_message : Option String
deriving DecidableEq, Repr

/-- `PhotoProcessor.queue_photo_for_processing`: a fresh job. -/
def new_proc_job (jobId : String) : ProcJob :=
  { job_id := jobId, retry_count := 0, status := .pending, error_message := none }

/-- Side effects of one `_process_photo_job` call: the arguments of the
`asyncio.sleep` calls made, the number of `delete_photo_and_thumbnails`
cleanup invocations, and whether the job was put back on the queue. -/
structure JobEffects where
  sleeps : List ℕ
  cleanup_calls : ℕ
  requeued : Bool
deriving DecidableEq, Repr

/-- The exception handler of `PhotoProcessor._process_photo_job`
(lines 194–225).  `stepOk` abstracts whether the pipeline steps
(convert → validate → upload → persist) all succeed.  On failure the retry
count is incremented; below `max_retries` the worker sleeps
`retry_delay * retry_count`, sets status `retry` and re-queues; otherwise
the job becomes `failed` and the partial blob assets are deleted
(best-effort, exactly one invocation). -/
def process_photo_job (stepOk : Bool) (job : ProcJob) : ProcJob × JobEffects :=
  if stepOk then
    ({ job with status := .completed }, ⟨[], 0, false⟩)
  else
    let rc := job.retry_count + 1
    if rc < max_retries then
      ({ job with retry_count := rc, status := .retry,
                  error_message := some "step failed" },
       ⟨[retry_delay * rc], 0, true⟩)
    else
      ({ job with retry_count := rc, status := .failed,
                  error_message := some "step failed" },
       ⟨[], 1, false⟩)

/-- The single-consumer worker loop (`PhotoProcessor.start_processing`)
restricted to one job: keep processing while the job is re-queued, with
`attempts` listing the success/failure of each pipeline pass.
Accumulates all sleeps and cleanup invocations. -/
def run_job : List Bool → ProcJob → ProcJob × JobEffects
  | [], job => (job, ⟨[], 0, false⟩)
  | stepOk :: rest, job =>
    let r := process_photo_job stepOk job
    if r.2.requeued then
      let rf := run_job rest r.1
      (rf.1, ⟨r.2.sleeps ++ rf.2.sleeps, r.2.cleanup_calls + rf.2.cleanup_calls,
              rf.2.requeued⟩)
    else r

/-! ## Export jobs (`models/export.py`) -/

/-- The fields of `ExportJob` (`models/export.py`) that the verified
claims depend on.  `updated_at` / `started_at` / `completed_at` and
the requester metadata are bookkeeping timestamps with no bearing on any
claim and are omitted.  Timestamps are seconds since an arbitrary epoch. -/
structure ExportJobL where
  id : String
  export_type : ExportFormat
  photo_ids : List String
  status : JobStatus
  include_photos_in_kmz : Bool
  file_path : Option String
  file_size : Option ℕ
  created_at : ℕ
  expires_at : Option ℕ
  progress : ℚ
  total_photos : ℕ
  processed_photos : ℕ
  error_message : Option String
deriving DecidableEq, Repr

/-- `ExportJob.__init__`: defaults (status `pending`, zero progress) plus
the post-`super().__init__` fixups: `total_photos = len(photo_ids)` when
the list is non-empty, and `expires_at = created_at + 24h` when unset. -/
def init_export_job (jobId : String) (fmt : ExportFormat)
    (photoIds : List String) (createdAt : ℕ) : ExportJobL :=
  { id := jobId
    export_type := fmt
    photo_ids := photoIds
    status := .pending
    include_photos_in_kmz := true
    file_path := none
    file_size := none
    created_at := createdAt
    expires_at := some (createdAt + 24 * 3600)
    progress := 0
    total_photos := if photoIds ≠ [] then photoIds.length else 0
    processed_photos := 0
    error_message := none }

/-- `ExportJob.update_progress`: store the processed count and, when
`total_photos > 0`, set `progress = (processed_count / total_photos) * 100`. -/
def update_progress (job : ExportJobL) (processedCount : ℕ) : ExportJobL :=
  let j := { job with processed_photos := processedCount }
  if j.total_photos > 0 then
    { j with progress := ((processedCount : ℚ) / (j.total_photos : ℚ)) * 100 }
  else j

/-- `ExportJob.mark_started`. -/
def mark_started (job : ExportJobL) : ExportJobL :=
  { job with status := .processing }

/-- `ExportJob.mark_completed`: signature `(file_path, file_size)`. -/
def mark_completed (job : ExportJobL) (filePath : String) (fileSize : ℕ) :
    ExportJobL :=
  { job with status := .completed, file_path := some filePath,
             file_size := some fileSize, progress := 100 }

/-- `ExportJob.mark_failed`. -/
def mark_failed (job : ExportJobL) (msg : String) : ExportJobL :=
  { job with status := .failed, error_message := some msg }

/-- `ExportJob.is_expired`: `self.expires_at and datetime.utcnow() >
self.expires_at` — falsy when `expires_at` is unset. -/
def is_expired (job : ExportJobL) (now : ℕ) : Bool :=
  match job.expires_at with
  | none => false
  | some e => now > e

/-! ## Export service state (`services/export_service.py`) -/

/-- The shared mutable state of `ExportService`: the `active_jobs` dict
(association list keyed by job id) and the `job_queue` of job ids. -/
structure ExpState where
  active_jobs : List (String × ExportJobL)
  job_queue : List String
deriving DecidableEq, Repr

/-- Dict read `self.active_jobs.get(job_id)`. -/
def lookup_job (jobs : List (String × ExportJobL)) (jid : String) :
    Option ExportJobL :=
  match jobs.find? (fun pr => pr.1 = jid) with
  | some pr => some pr.2
  | none => none

/-- Dict write `self.active_jobs[job_id] = job` (replace or append). -/
def set_job (jobs : List (String × ExportJobL)) (jid : String)
    (j : ExportJobL) : List (String × ExportJobL) :=
  if (jobs.find? (fun pr => pr.1 = jid)).isSome then
    jobs.map (fun pr => if pr.1 = jid then (jid, j) else pr)
  else jobs ++ [(jid, j)]

/-- Dict delete `del self.active_jobs[job_id]`. -/
def delete_job (jobs : List (String × ExportJobL)) (jid : String) :
    List (String × ExportJobL) :=
  jobs.filter (fun pr => pr.1 ≠ jid)

/-- `ExportService._validate_photo_ids`: keep the ids that resolve via the
database service; missing ids are skipped with a warning. -/
def validate_photo_ids (db : List PhotoRec) (ids : List String) : List String :=
  ids.filter (fun pid => (get_photo db pid).isSome)

/-- `ExportService.create_export_job`: filter the ids, raise
`ValueError("No valid photos found for export")` when none resolve,
otherwise construct the job, store it in `active_jobs` and put its id on
`job_queue`. -/
def create_export_job (db : List PhotoRec) (st : ExpState)
    (photoIds : List String) (fmt : ExportFormat) (jobId : String)
    (now : ℕ) : Except String (ExportJobL × ExpState) :=
  let valid := validate_photo_ids db photoIds
  if valid = [] then
    .error "No valid photos found for export"
  else
    let job := init_export_job jobId fmt valid now
    .ok (job, { active_jobs := set_job st.active_jobs jobId job,
                job_queue := st.job_queue ++ [jobId] })

/-- `ExportService.cancel_job`: effective only while the status is
`pending`, `queued` or `processing`; returns whether it took effect. -/
def cancel_job (st : ExpState) (jid : String) : Bool × ExpState :=
  match lookup_job st.active_jobs jid with
  | none => (false, st)
  | some job =>
    if job.status = .pending ∨ job.status = .queued ∨ job.status = .processing then
      let job' : ExportJobL := { job with status := .cancelled }
      (true, { st with active_jobs := set_job st.active_jobs jid job' })
    else (false, st)

/-- The body of the second loop of `cleanup_expired_jobs`: look up the
collected job id (always present, since it was collected from the same
dict — the `none` branch is unreachable there), delete its backing file
from disk when it has one, and remove the record. -/
def cleanup_step (acc : List (String × ExportJobL) × List String)
    (jid : String) : List (String × ExportJobL) × List String :=
  match lookup_job acc.1 jid with
  | none => acc
  | some job =>
    let files' := match job.file_path with
      | some p => acc.2.filter (fun q => q ≠ p)
      | none => acc.2
    (delete_job acc.1 jid, files')

/-- `ExportService.cleanup_expired_jobs`: first pass collects the ids of
expired jobs; second pass deletes the backing file of each one (when
present) and removes the record.  `files` models the set of paths
existing on disk. -/
def cleanup_expired_jobs (st : ExpState) (files : List String) (now : ℕ) :
    ExpState × List String :=
  let expiredIds :=
    (st.active_jobs.filter (fun pr => is_expired pr.2 now)).map Prod.fst
  let r := expiredIds.foldl cleanup_step (st.active_jobs, files)
  ({ st with active_jobs := r.1 }, r.2)

/-! ## Export generation (`services/export_service.py`) -/

/-- The character whitelist of `ExportService._make_safe_filename`. -/
def safe_chars : List Char :=
  ("abcdefghijklmnopqrstuvwxyzABCDEFGHIJKLMNOPQRSTUVWXYZ0123456789.-_").toList

/-- `ExportService._make_safe_filename`. -/
def make_safe_filename (filename : String) : String :=
  let s := String.mk (filename.toList.map
    (fun c => if c ∈ safe_chars then c else '_'))
  if s = "" then "photo.jpg" else s

/-- `ExportService._get_photos_for_export`: resolve each id, dropping
the ones not found. -/
def get_photos_for_export (db : List PhotoRec) (ids : List String) :
    List PhotoRec :=
  ids.filterMap (fun pid => get_photo db pid)

/-- `ExportService._add_photos_to_zip`: iterate over the photos with
their 0-based index `i`; `fetchOk` abstracts the network download of each
photo (`requests.get`).  On success the sanitized filename is written to
the archive and `update_progress(i + 1)` is called; a failed fetch is
logged and skipped (`continue`).  Returns the final job state and the
archive entries added. -/
def add_photos_to_zip (fetchOk : PhotoRec → Bool) :
    ExportJobL → List String → ℕ → List PhotoRec → ExportJobL × List String
  | job, entries, _, [] => (job, entries)
  | job, entries, i, p :: rest =>
    if fetchOk p then
      add_photos_to_zip fetchOk (update_progress job (i + 1))
        (entries ++ [make_safe_filename p.original_filename]) (i + 1) rest
    else
      add_photos_to_zip fetchOk job entries (i + 1) rest

/-- `ExportService.__init__` assigns `database_service`, `blob_manager`,
`max_concurrent_jobs`, `active_jobs`, `job_queue`, `executor`,
`_processing_task`, `temp_export_dir`, `kml_generator` and
`kmz_generator` — and never `export_directory`.  The attribute read
`self.export_directory` in `_upload_export_file` (line 409) therefore
raises `AttributeError`; the absent attribute is recorded as `none`. -/
def export_directory : Option String := none

/-- `ExportService._upload_export_file`: composing the blob path reads the
missing `export_directory` attribute, so the call raises before uploading
anything (and even with the attribute present, the final
`job.mark_completed(download_url, file_size, blob_path)` call passes three
arguments to a two-argument method). -/
def upload_export_file (_job : ExportJobL) (_filePath : String) :
    Except String ExportJobL :=
  match export_directory with
  | none =>
    .error "AttributeError: ExportService object has no attribute export_directory"
  | some _ =>
    .error "TypeError: mark_completed() takes 3 positional arguments but 4 were given"

/-- `ExportService._generate_photos_export`: build a ZIP containing only
the photo files (no KML entry is ever added), then hand it to
`_upload_export_file`; any exception is caught and the job marked failed
with a `"Photos export failed: …"` message. -/
def generate_photos_export (fetchOk : PhotoRec → Bool) (job : ExportJobL)
    (photos : List PhotoRec) : ExportJobL × List String :=
  let r := add_photos_to_zip fetchOk job [] 0 photos
  match upload_export_file r.1 "temp.zip" with
  | .ok j => (j, r.2)
  | .error e => (mark_failed r.1 ("Photos export failed: " ++ e), r.2)

/-- `_generate_kml_export` / `_generate_kmz_export`: write the generated
document to a temporary file and mark the job completed; any exception in
generation (`genOk = false`, covering the external generator and I/O)
marks it failed.  The archive entries of the KMZ/ZIP variants are not
needed by any claim and are omitted here. -/
def generate_simple_export (genOk : Bool) (tmpPath : String) (size : ℕ)
    (fmtName : String) (job : ExportJobL) : ExportJobL :=
  if genOk then mark_completed job tmpPath size
  else mark_failed job (fmtName ++ " export failed")

/-- `ExportService._process_export_job`: mark started, fetch the photo
records, fail when none resolve, otherwise dispatch on the export format.
Returns the processed job and, for the photos-only format, the archive
entries written. -/
def process_export_job (db : List PhotoRec) (fetchOk : PhotoRec → Bool)
    (genOk : Bool) (tmpPath : String) (size : ℕ) (job : ExportJobL) :
    ExportJobL × List String :=
  let job0 := mark_started job
  let photos := get_photos_for_export db job.photo_ids
  if photos = [] then (mark_failed job0 "No photos found for export", [])
  else
    match job.export_type with
    | .kml => (generate_simple_export genOk tmpPath size "KML" job0, [])
    | .kmz => (generate_simple_export genOk tmpPath size "KMZ" job0, [])
    | .zip => (generate_simple_export genOk tmpPath size "ZIP" job0, [])
    | .photosOnly => generate_photos_export fetchOk job0 photos

/-- One iteration of `ExportService._process_job_queue`: pop the next job
id; skip ids that are not in `active_jobs` or whose job is already
`cancelled`; otherwise run `_process_export_job` and store the mutated
job. -/
def consume_step (db : List PhotoRec) (fetchOk : PhotoRec → Bool)
    (genOk : Bool) (tmpPath : String) (size : ℕ) (st : ExpState) : ExpState :=
  match st.job_queue with
  | [] => st
  | jid :: rest =>
    match lookup_job st.active_jobs jid with
    | none => { st with job_queue := rest }
    | some job =>
      if job.status = .cancelled then { st with job_queue := rest }
      else
        let r := process_export_job db fetchOk genOk tmpPath size job
        { active_jobs := set_job st.active_jobs jid r.1, job_queue := rest }

/-- Terminal job statuses: `completed`, `failed`, `cancelled`. -/
def isTerminal : JobStatus → Bool
  | .completed => true
  | .failed => true
  | .cancelled => true
  | _ => false

/-- Well-formedness of the export-service queue: every id sitting on
`job_queue` refers to a job that is still `pending` (it was enqueued at
creation) or was `cancelled` while waiting.  Established at creation time
and preserved by every operation (proved below); it rules out a
`completed`/`failed` job being dequeued and re-processed. -/
def QueueInv (st : ExpState) : Prop :=
  ∀ jid ∈ st.job_queue, ∀ job, lookup_job st.active_jobs jid = some job →
    job.status = .pending ∨ job.status = .cancelled

/-! # Theorems -/

/-! ## Helper lemmas -/

theorem lookup_job_nil (jid : String) :
    lookup_job ([] : List (String × ExportJobL)) jid = none := rfl

theorem lookup_job_cons (pr : String × ExportJobL)
    (rest : List (String × ExportJobL)) (jid : String) :
    lookup_job (pr :: rest) jid =
      if pr.1 = jid then some pr.2 else lookup_job rest jid := by
  by_cases h : pr.1 = jid <;> simp [lookup_job, List.find?_cons, h]

theorem lookup_job_append (xs ys : List (String × ExportJobL)) (jid : String) :
    lookup_job (xs ++ ys) jid =
      match lookup_job xs jid with
      | some v => some v
      | none => lookup_job ys jid := by
  induction xs with
  | nil => simp [lookup_job_nil]
  | cons pr rest ih =>
    by_cases h : pr.1 = jid <;> simp [lookup_job_cons, h, ih]

theorem lookup_job_map_update (jobs : List (String × ExportJobL))
    (jid : String) (j : ExportJobL) :
    lookup_job (jobs.map (fun pr => if pr.1 = jid then (jid, j) else pr)) jid =
      if (jobs.find? (fun pr => pr.1 = jid)).isSome then some j else none := by
  induction jobs with
  | nil => simp [lookup_job_nil]
  | cons pr rest ih =>
    by_cases h : pr.1 = jid
    · rw [List.find?_cons_of_pos _ (by simpa using h)]
      simp [lookup_job_cons, h]
    · rw [List.find?_cons_of_neg _ (by simpa using h)]
      simp [lookup_job_cons, h, ih]

theorem lookup_job_map_update_ne (jobs : List (String × ExportJobL))
    (jid jid' : String) (j : ExportJobL) (h : jid' ≠ jid) :
    lookup_job (jobs.map (fun pr => if pr.1 = jid then (jid, j) else pr)) jid'
      = lookup_job jobs jid' := by
  induction jobs with
  | nil => simp [lookup_job_nil]
  | cons pr rest ih =>
    by_cases hp : pr.1 = jid
    · have hne : (jid : String) ≠ jid' := fun hc => h hc.symm
      have hne' : ¬ pr.1 = jid' := by
        rw [hp]; exact hne
      simp [lookup_job_cons, hp, hne, hne', ih]
    · by_cases hp' : pr.1 = jid'
      · simp [lookup_job_cons, hp, hp', h]
      · simp [lookup_job_cons, hp, hp', ih]

theorem lookup_job_eq_none_of_find_none (jobs : List (String × ExportJobL))
    (jid : String) (h : ¬ (jobs.find? (fun pr => pr.1 = jid)).isSome) :
    lookup_job jobs jid = none := by
  unfold lookup_job
  cases hf : jobs.find? (fun pr => pr.1 = jid) with
  | none => rfl
  | some pr => rw [hf] at h; simp at h

theorem lookup_job_set_job_self (jobs : List (String × ExportJobL))
    (jid : String) (j : ExportJobL) :
    lookup_job (set_job jobs jid j) jid = some j := by
  unfold set_job
  by_cases h : (jobs.find? (fun pr => pr.1 = jid)).isSome
  · rw [if_pos h, lookup_job_map_update, if_pos h]
  · rw [if_neg h, lookup_job_append,
      lookup_job_eq_none_of_find_none jobs jid h]
    simp [lookup_job_cons]

theorem lookup_job_set_job_ne (jobs : List (String × ExportJobL))
    (jid jid' : String) (j : ExportJobL) (h : jid' ≠ jid) :
    lookup_job (set_job jobs jid j) jid' = lookup_job jobs jid' := by
  unfold set_job
  by_cases hf : (jobs.find? (fun pr => pr.1 = jid)).isSome
  · rw [if_pos hf, lookup_job_map_update_ne _ _ _ _ h]
  · rw [if_neg hf, lookup_job_append]
    have hne : (jid : String) ≠ jid' := fun hc => h hc.symm
    cases hl : lookup_job jobs jid' with
    | some v => rfl
    | none => simp [lookup_job_cons, hne, lookup_job_nil]

/-! ## C4 — GPS DMS conversion -/

/-- C4: GPS DMS parsing converts a degrees/minutes/seconds triple to
decimal degrees as `deg + min/60 + sec/3600`, with the sign flipped when
the hemisphere reference is South or West, and the altitude sign flipped
when the altitude reference indicates below sea level; in particular the
triple (40°, 30′, 0″) with ref N resolves to 40.5 and with ref S to
-40.5. -/
theorem gps_dms_conversion (g : GpsData) (dms : DMS) (ref : String) :
    (g.gpsLatitude = some dms → g.gpsLatitudeRef = some ref →
      (parse_gps_coordinates g).1 =
        some ((if ref = "S" then -1 else 1) *
          (dms.deg + dms.min / 60 + dms.sec / 3600)))
    ∧ (g.gpsLongitude = some dms → g.gpsLongitudeRef = some ref →
      (parse_gps_coordinates g).2.1 =
        some ((if ref = "W" then -1 else 1) *
          (dms.deg + dms.min / 60 + dms.sec / 3600)))
    ∧ (∀ a : ℚ, g.gpsAltitude = some a →
      (parse_gps_coordinates g).2.2 =
        some (if g.gpsAltitudeRef = some 1 then -a else a))
    ∧ (parse_gps_coordinates
        { gpsLatitude := some ⟨40, 30, 0⟩, gpsLatitudeRef := some "N" }).1 =
      some (405 / 10)
    ∧ (parse_gps_coordinates
        { gpsLatitude := some ⟨40, 30, 0⟩, gpsLatitudeRef := some "S" }).1 =
      some (-(405 / 10)) := by
  refine ⟨?_, ?_, ?_, ?_, ?_⟩
  · intro hlat href
    simp only [parse_gps_coordinates, hlat, href, convert_to_degrees]
    by_cases h : ref = "S" <;> simp [h]
  · intro hlon href
    simp only [parse_gps_coordinates, hlon, href, convert_to_degrees]
    by_cases h : ref = "W" <;> simp [h]
  · intro a halt
    simp only [parse_gps_coordinates, halt]
  · have hne : ¬ ("N" : String) = "S" := by decide
    simp only [parse_gps_coordinates, convert_to_degrees, if_neg hne]
    norm_num
  · simp only [parse_gps_coordinates, convert_to_degrees, if_pos rfl]
    norm_num

/-- Witness for C4: the (40°, 30′, 0″) triple with reference N evaluates
to 40.5 via the general conversion theorem. -/
theorem gps_dms_conversion_witness :
    (parse_gps_coordinates
      { gpsLatitude := some ⟨40, 30, 0⟩, gpsLatitudeRef := some "N" }).1 =
      some ((if ("N" : String) = "S" then -1 else 1) *
        ((40 : ℚ) + 30 / 60 + 0 / 3600)) :=
  (gps_dms_conversion
    { gpsLatitude := some ⟨40, 30, 0⟩, gpsLatitudeRef := some "N" }
    ⟨40, 30, 0⟩ "N").1 rfl rfl

/-! ## C10 — file validation -/

/-- C10: `validate_file` raises a validation error exactly when the
payload exceeds 50 MB, or the declared content type is outside the
supported set, or the bytes fail image decoding/verification;
`application/octet-stream` passes the type check, and the filename
(hence any extension mismatch, which only logs a warning) never affects
the outcome. -/
theorem validate_file_spec (fileSize : ℕ) (filename : String)
    (contentType : String) (decodesOk : Bool) :
    ((∃ e, validate_file fileSize filename contentType decodesOk = .error e)
      ↔ (fileSize > max_file_size ∨ contentType ∉ supported_formats ∨
          decodesOk = false))
    ∧ ("application/octet-stream" ∈ supported_formats)
    ∧ (∀ filename' : String,
        validate_file fileSize filename contentType decodesOk =
        validate_file fileSize filename' contentType decodesOk) := by
  refine ⟨?_, by simp [supported_formats], fun _ => rfl⟩
  unfold validate_file
  split
  · rename_i h
    exact ⟨fun _ => Or.inl h, fun _ => ⟨_, rfl⟩⟩
  · rename_i h
    split
    · rename_i h2
      exact ⟨fun _ => Or.inr (Or.inl h2), fun _ => ⟨_, rfl⟩⟩
    · rename_i h2
      split
      · rename_i h3
        refine ⟨fun _ => Or.inr (Or.inr ?_), fun _ => ⟨_, rfl⟩⟩
        simpa using h3
      · rename_i h3
        constructor
        · rintro ⟨e, he⟩
          simp at he
        · rintro (hc | hc | hc)
          · exact absurd hc h
          · exact absurd hc h2
          · exact absurd hc (by simpa using h3)

/-- Witness for C10: a 1-byte `application/octet-stream` payload that
decodes passes validation (the error-characterisation gives no error). -/
theorem validate_file_spec_witness :
    ((∃ e, validate_file 1 "img.heic" "application/octet-stream" true = .error e)
      ↔ (1 > max_file_size ∨
          ("application/octet-stream" : String) ∉ supported_formats ∨
          (true : Bool) = false)) :=
  (validate_file_spec 1 "img.heic" "application/octet-stream" true).1

/-! ## C3 — coordinate resolution precedence -/

/-- Counterexample to C3 as stated: EXIF extraction yields latitude `0`
(a point on the equator) and longitude `10`, with no manual coordinates.
The claim requires the EXIF coordinates to be used with
`coordinate_source = "exif"`, but the `elif` truthiness test drops the
zero latitude and `process_upload` raises the no-coordinates error
instead. -/
theorem coordinate_precedence_counterexample :
    (({ latitude := some 0, longitude := some 10 } : ExifData).latitude.isSome
      = true)
    ∧ (({ latitude := some 0, longitude := some 10 } : ExifData).longitude.isSome
      = true)
    ∧ process_upload_coords none { latitude := some 0, longitude := some 10 } =
        .error "No valid GPS coordinates found in EXIF data and no manual coordinates provided"
    ∧ (resolve_coordinates none
        { latitude := some 0, longitude := some 10 }).coordinate_source ≠ "exif" := by
  refine ⟨rfl, rfl, ?_, ?_⟩ <;>
    simp [process_upload_coords, resolve_coordinates, pyTruthyQ]

/-- C3 (amended): coordinates follow the precedence manual > EXIF > none,
where the EXIF branch additionally requires both coordinates to be
truthy (non-`None` and non-zero, per the Python `elif` test): when manual
coordinates are supplied they are used with source `"manual"`; otherwise
truthy EXIF coordinates are used with source `"exif"`; when neither
source yields (truthy) coordinates the upload fails with the
no-coordinates error.  The spec scenario (EXIF lat 39.0269,
lon -86.9480) resolves to source `"exif"` with the exact coordinates. -/
theorem coordinate_precedence (manual : Option ManualCoords)
    (exif : ExifData) :
    (∀ m, manual = some m →
      resolve_coordinates manual exif =
        ⟨m.latitude, m.longitude, m.altitude, "manual"⟩)
    ∧ (manual = none → pyTruthyQ exif.latitude = true →
        pyTruthyQ exif.longitude = true →
      resolve_coordinates manual exif =
        ⟨exif.latitude, exif.longitude, exif.altitude, "exif"⟩)
    ∧ (manual = none →
        ¬ (pyTruthyQ exif.latitude = true ∧ pyTruthyQ exif.longitude = true) →
      process_upload_coords manual exif =
        .error "No valid GPS coordinates found in EXIF data and no manual coordinates provided")
    ∧ (process_upload_coords none
        { latitude := some (390269 / 10000), longitude := some (-869480 / 10000) }
        = .ok ⟨some (390269 / 10000), some (-869480 / 10000), none, "exif"⟩) := by
  refine ⟨?_, ?_, ?_, ?_⟩
  · rintro m rfl
    rfl
  · rintro rfl hlat hlon
    simp [resolve_coordinates, hlat, hlon]
  · rintro rfl hnot
    have : ¬ (pyTruthyQ exif.latitude ∧ pyTruthyQ exif.longitude) := by
      simpa using hnot
    simp [process_upload_coords, resolve_coordinates, this]
  · have h1 : pyTruthyQ (some ((390269 : ℚ) / 10000)) = true := by
      norm_num [pyTruthyQ]
    have h2 : pyTruthyQ (some ((-869480 : ℚ) / 10000)) = true := by
      norm_num [pyTruthyQ]
    simp only [process_upload_coords, resolve_coordinates, h1, h2,
      and_self, if_pos]
    norm_num [validate_coordinates]
    rfl

/-- Witness for C3: manual coordinates (41, -85) are taken verbatim with
source `"manual"`. -/
theorem coordinate_precedence_witness :
    resolve_coordinates
      (some { latitude := some 41, longitude := some (-85) })
      { latitude := some 1, longitude := some 2 } =
      ⟨some 41, some (-85), none, "manual"⟩ :=
  (coordinate_precedence
    (some { latitude := some 41, longitude := some (-85) })
    { latitude := some 1, longitude := some 2 }).1
    { latitude := some 41, longitude := some (-85) } rfl

/-! ## C1 — duplicate detection on upload -/

/-- Counterexample to C1 as stated: two submissions of the same bytes.
The first is queued, its pipeline run stores the record `photo-1`, and
the second resolves to `photo-1` before any job is queued — but contrary
to the claim it does **not** short-circuit into an update of the existing
record: the route returns a duplicate response and the update log stays
empty (no `update_photo` call is made anywhere on this path). -/
theorem upload_dedup_counterexample :
    upload_photo (fun _ => "h") ⟨[], [], []⟩ [1, 2, 3] "job1" =
      (.queuedJob "job1", ⟨[], ["job1"], []⟩)
    ∧ upload_photo (fun _ => "h")
        ⟨create_photo [] ⟨"photo-1", "photo_x.jpg", "orig.jpg", "h"⟩, [], []⟩
        [1, 2, 3] "job2" =
      (.duplicate "photo-1",
        ⟨[⟨"photo-1", "photo_x.jpg", "orig.jpg", "h"⟩], [], []⟩)
    ∧ (upload_photo (fun _ => "h")
        ⟨create_photo [] ⟨"photo-1", "photo_x.jpg", "orig.jpg", "h"⟩, [], []⟩
        [1, 2, 3] "job2").2.update_log = [] := by
  refine ⟨rfl, ?_, ?_⟩ <;> rfl

/-- C1 (amended): the content hash is a deterministic function of the
bytes, and a submission whose hash already has a stored record resolves
to the id of the (first) existing record before any job is queued,
returning a duplicate response: the state is left entirely unchanged —
no job enqueued, no record created, and no update performed. -/
theorem upload_dedup (hashFn : List ℕ → String) (st : IngestState)
    (content : List ℕ) (jobId : String) (p : PhotoRec) (ps : List PhotoRec)
    (hdup : get_photos_by_hash st.store (hashFn content) = p :: ps) :
    (∀ c₁ c₂ : List ℕ, c₁ = c₂ → hashFn c₁ = hashFn c₂)
    ∧ upload_photo hashFn st content jobId = (.duplicate p.id, st) := by
  constructor
  · rintro c₁ c₂ rfl
    rfl
  · simp only [upload_photo, hdup]

/-- Witness for C1: a store holding one record with hash `"h"` makes the
next submission of that content resolve to it, leaving the state
unchanged. -/
theorem upload_dedup_witness :
    upload_photo (fun _ => "h")
      ⟨[⟨"photo-1", "f.jpg", "o.jpg", "h"⟩], [], []⟩ [9] "job9" =
      (.duplicate "photo-1", ⟨[⟨"photo-1", "f.jpg", "o.jpg", "h"⟩], [], []⟩) :=
  (upload_dedup (fun _ => "h") ⟨[⟨"photo-1", "f.jpg", "o.jpg", "h"⟩], [], []⟩
    [9] "job9" ⟨"photo-1", "f.jpg", "o.jpg", "h"⟩ [] rfl).2

/-! ## C2 — ingestion retry state machine -/

theorem run_job_cleanup_le (attempts : List Bool) (job : ProcJob) :
    (run_job attempts job).2.cleanup_calls ≤ 1 := by
  induction attempts generalizing job with
  | nil => simp [run_job]
  | cons a rest ih =>
    by_cases ha : a
    · subst ha
      simp [run_job, process_photo_job]
    · have ha' : a = false := by simpa using ha
      subst ha'
      by_cases h : job.retry_count + 1 < max_retries
      · simpa [run_job, process_photo_job, h] using ih _
      · simp [run_job, process_photo_job, h]

theorem run_job_cleanup_iff (attempts : List Bool) (job : ProcJob)
    (hs : job.status ≠ .failed) :
    (run_job attempts job).2.cleanup_calls = 1 ↔
    (run_job attempts job).1.status = .failed := by
  induction attempts generalizing job with
  | nil =>
    simp only [run_job]
    exact ⟨fun h => by simp at h, fun h => absurd h hs⟩
  | cons a rest ih =>
    by_cases ha : a
    · subst ha
      simp only [run_job, process_photo_job]
      exact ⟨fun h => by simp at h, fun h => by simp at h⟩
    · have ha' : a = false := by simpa using ha
      subst ha'
      by_cases h : job.retry_count + 1 < max_retries
      · have key := ih { job with retry_count := job.retry_count + 1, status := ProcessingStatus.retry, error_message := some "step failed" } (by simp)
        simpa [run_job, process_photo_job, h] using key
      · simp [run_job, process_photo_job, h]

/-- C2: on any pipeline failure the retry count is incremented; while it
stays below 3 the worker sleeps `retry_delay * retry_count` (linear
backoff) and re-enqueues the job with status `retry`; once it reaches 3
the job becomes `failed` and blob-asset cleanup is invoked — exactly once
over the whole life of the job (cleanup count is always at most one, and
equals one exactly when the job ends `failed`).  A job failing all its
attempts ends `failed` with retry count 3, sleeps `[5, 10]` and one
cleanup call. -/
theorem retry_backoff (job : ProcJob) :
    (job.retry_count + 1 < max_retries →
      process_photo_job false job =
        ({ job with retry_count := job.retry_count + 1, status := .retry,
                    error_message := some "step failed" },
         ⟨[retry_delay * (job.retry_count + 1)], 0, true⟩))
    ∧ (max_retries ≤ job.retry_count + 1 →
      process_photo_job false job =
        ({ job with retry_count := job.retry_count + 1, status := .failed,
                    error_message := some "step failed" },
         ⟨[], 1, false⟩))
    ∧ (∀ attempts : List Bool, (run_job attempts job).2.cleanup_calls ≤ 1)
    ∧ (job.status ≠ .failed → ∀ attempts : List Bool,
        ((run_job attempts job).2.cleanup_calls = 1 ↔
         (run_job attempts job).1.status = .failed))
    ∧ (run_job [false, false, false] (new_proc_job job.job_id) =
        ({ job_id := job.job_id, retry_count := 3, status := .failed,
           error_message := some "step failed" },
         ⟨[5, 10], 1, false⟩)) := by
  refine ⟨?_, ?_, ?_, ?_, ?_⟩
  · intro h
    simp [process_photo_job, h]
  · intro h
    have h' : ¬ (job.retry_count + 1 < max_retries) := by omega
    simp [process_photo_job, h']
  · exact fun attempts => run_job_cleanup_le attempts job
  · exact fun hs attempts => run_job_cleanup_iff attempts job hs
  · rfl

/-- Witness for C2: a fresh job failing its first pass is re-enqueued
with status `retry`, count 1 and a 5-second backoff sleep. -/
theorem retry_backoff_witness :
    process_photo_job false (new_proc_job "j") =
      ({ job_id := "j", retry_count := 1, status := .retry,
         error_message := some "step failed" },
       ⟨[5], 0, true⟩) :=
  (retry_backoff (new_proc_job "j")).1 (by decide)

/-! ## C5 — export job creation -/

/-- C5: `create_export_job` filters the requested ids to those that
resolve in the database (missing ids dropped, no error), fails with the
no-valid-photos error exactly when the filtered list is empty, and
otherwise stores the job in `active_jobs` and appends its id to the
queue, with `total_photos` equal to the number of valid ids.  In the spec
scenario (2 valid ids and 1 nonexistent) the job has `total_photos = 2`. -/
theorem create_export_job_spec (db : List PhotoRec) (st : ExpState)
    (photoIds : List String) (fmt : ExportFormat) (jobId : String) (now : ℕ) :
    (validate_photo_ids db photoIds =
      photoIds.filter (fun pid => (get_photo db pid).isSome))
    ∧ (create_export_job db st photoIds fmt jobId now =
        .error "No valid photos found for export" ↔
        validate_photo_ids db photoIds = [])
    ∧ (∀ job st',
        create_export_job db st photoIds fmt jobId now = .ok (job, st') →
        job.total_photos = (validate_photo_ids db photoIds).length
        ∧ job.status = .pending
        ∧ lookup_job st'.active_jobs jobId = some job
        ∧ st'.job_queue = st.job_queue ++ [jobId])
    ∧ (∃ job st',
        create_export_job
          [⟨"p1", "f1", "o1", "h1"⟩, ⟨"p2", "f2", "o2", "h2"⟩] ⟨[], []⟩
          ["p1", "p2", "missing"] ExportFormat.kmz "j1" 0 = .ok (job, st')
        ∧ job.total_photos = 2) := by
  refine ⟨rfl, ?_, ?_, ?_⟩
  · by_cases h : validate_photo_ids db photoIds = [] <;>
      simp [create_export_job, h]
  · intro job st' hok
    by_cases h : validate_photo_ids db photoIds = []
    · simp [create_export_job, h] at hok
    · simp only [create_export_job, h, if_neg, ite_false, Except.ok.injEq,
        Prod.mk.injEq] at hok
      obtain ⟨hjob, hst⟩ := hok
      subst hjob
      subst hst
      refine ⟨?_, rfl, lookup_job_set_job_self _ _ _, rfl⟩
      simp [init_export_job, h]
  · exact ⟨_, _, rfl, rfl⟩

/-- Witness for C5: a request with one resolvable id creates a job with
`total_photos = 1`, status `pending`, stored under its id, with the id
enqueued. -/
theorem create_export_job_spec_witness :
    (init_export_job "j1" ExportFormat.kml ["p1"] 0).total_photos =
      (validate_photo_ids [⟨"p1", "f1", "o1", "h1"⟩] ["p1"]).length
    ∧ (init_export_job "j1" ExportFormat.kml ["p1"] 0).status = .pending
    ∧ lookup_job (set_job [] "j1" (init_export_job "j1" ExportFormat.kml ["p1"] 0))
        "j1" = some (init_export_job "j1" ExportFormat.kml ["p1"] 0)
    ∧ ([] : List String) ++ ["j1"] = [] ++ ["j1"] :=
  (create_export_job_spec [⟨"p1", "f1", "o1", "h1"⟩] ⟨[], []⟩ ["p1"]
    ExportFormat.kml "j1" 0).2.2.1
    (init_export_job "j1" ExportFormat.kml ["p1"] 0)
    ⟨set_job [] "j1" (init_export_job "j1" ExportFormat.kml ["p1"] 0), [] ++ ["j1"]⟩
    rfl

/-! ## C6 — export progress invariants -/

theorem update_progress_total (job : ExportJobL) (pc : ℕ) :
    (update_progress job pc).total_photos = job.total_photos := by
  simp only [update_progress]
  split <;> rfl

theorem update_progress_processed (job : ExportJobL) (pc : ℕ) :
    (update_progress job pc).processed_photos = pc := by
  simp only [update_progress]
  split <;> rfl

theorem update_progress_progress (job : ExportJobL) (pc : ℕ)
    (h : 0 < job.total_photos) :
    (update_progress job pc).progress =
      ((pc : ℚ) / (job.total_photos : ℚ)) * 100 := by
  simp only [update_progress]
  rw [if_pos h]

theorem add_photos_to_zip_total (fetchOk : PhotoRec → Bool)
    (photos : List PhotoRec) :
    ∀ (job : ExportJobL) (entries : List String) (i : ℕ),
      (add_photos_to_zip fetchOk job entries i photos).1.total_photos =
        job.total_photos := by
  induction photos with
  | nil => intro job entries i; rfl
  | cons p rest ih =>
    intro job entries i
    by_cases hf : fetchOk p
    · simp [add_photos_to_zip, hf, ih, update_progress_total]
    · simp [add_photos_to_zip, hf, ih]

theorem add_photos_to_zip_processed_le (fetchOk : PhotoRec → Bool)
    (photos : List PhotoRec) :
    ∀ (job : ExportJobL) (entries : List String) (i : ℕ),
      job.processed_photos ≤ i →
      (add_photos_to_zip fetchOk job entries i photos).1.processed_photos ≤
        i + photos.length := by
  induction photos with
  | nil =>
    intro job entries i h
    simpa [add_photos_to_zip] using h
  | cons p rest ih =>
    intro job entries i h
    by_cases hf : fetchOk p
    · have := ih (update_progress job (i + 1))
        (entries ++ [make_safe_filename p.original_filename]) (i + 1)
        (by rw [update_progress_processed])
      simp only [add_photos_to_zip, hf, if_pos]
      calc (add_photos_to_zip fetchOk (update_progress job (i + 1))
            (entries ++ [make_safe_filename p.original_filename]) (i + 1)
            rest).1.processed_photos
          ≤ (i + 1) + rest.length := this
        _ = i + (p :: rest).length := by simp; omega
    · have := ih job entries (i + 1) (by omega)
      simp only [add_photos_to_zip, hf, if_neg, ite_false]
      calc (add_photos_to_zip fetchOk job entries (i + 1) rest).1.processed_photos
          ≤ (i + 1) + rest.length := this
        _ = i + (p :: rest).length := by simp; omega

/-- C6: after `update_progress pc` on a job with `total_photos > 0` the
progress equals `100 * pc / total_photos`; the processed count is stored
as given, so it stays at most `total_photos` whenever the argument does;
progress is non-decreasing across successive calls with non-decreasing
counts (which is how `_add_photos_to_zip` calls it); progress equals 100
exactly when `processed_photos = total_photos`; and in the ZIP loop
(whose counts are bounded by the photo count) `processed_photos` never
exceeds `total_photos`. -/
theorem update_progress_spec (job : ExportJobL) (pc pc' : ℕ)
    (htot : 0 < job.total_photos) :
    ((update_progress job pc).progress =
        100 * (pc : ℚ) / (job.total_photos : ℚ))
    ∧ ((update_progress job pc).processed_photos = pc)
    ∧ (pc ≤ job.total_photos →
        (update_progress job pc).processed_photos ≤
        (update_progress job pc).total_photos)
    ∧ (pc ≤ pc' →
        (update_progress job pc).progress ≤
        (update_progress (update_progress job pc) pc').progress)
    ∧ ((update_progress job pc).progress = 100 ↔ pc = job.total_photos)
    ∧ (∀ (fetchOk : PhotoRec → Bool) (entries : List String)
          (photos : List PhotoRec),
        photos.length ≤ job.total_photos → job.processed_photos = 0 →
        (add_photos_to_zip fetchOk job entries 0 photos).1.processed_photos ≤
        (add_photos_to_zip fetchOk job entries 0 photos).1.total_photos) := by
  have htq : (0 : ℚ) < (job.total_photos : ℚ) := by exact_mod_cast htot
  have htq' : (job.total_photos : ℚ) ≠ 0 := ne_of_gt htq
  refine ⟨?_, update_progress_processed job pc, ?_, ?_, ?_, ?_⟩
  · rw [update_progress_progress job pc htot]
    ring
  · intro hle
    rw [update_progress_processed, update_progress_total]
    exact hle
  · intro hle
    have htot2 : 0 < (update_progress job pc).total_photos := by
      rw [update_progress_total]
      exact htot
    rw [update_progress_progress job pc htot,
      update_progress_progress _ pc' htot2, update_progress_total]
    have hc : (pc : ℚ) ≤ (pc' : ℚ) := by exact_mod_cast hle
    gcongr
  · rw [update_progress_progress job pc htot, div_mul_eq_mul_div,
      div_eq_iff htq']
    constructor
    · intro h
      have : (pc : ℚ) = (job.total_photos : ℚ) := by linarith
      exact_mod_cast this
    · intro h
      rw [h]
      ring
  · intro fetchOk entries photos hlen hzero
    rw [add_photos_to_zip_total]
    calc (add_photos_to_zip fetchOk job entries 0 photos).1.processed_photos
        ≤ 0 + photos.length :=
          add_photos_to_zip_processed_le fetchOk photos job entries 0
            (by omega)
      _ ≤ job.total_photos := by omega

/-- Witness for C6: a 4-photo job at processed count 2 reports progress
`100 * 2 / 4 = 50`. -/
theorem update_progress_spec_witness :
    (update_progress (init_export_job "j" ExportFormat.kml ["a", "b", "c", "d"] 0) 2).progress = 100 * ((2 : ℕ) : ℚ) / ((init_export_job "j" ExportFormat.kml ["a", "b", "c", "d"] 0).total_photos : ℚ) :=
  (update_progress_spec (init_export_job "j" ExportFormat.kml
    ["a", "b", "c", "d"] 0) 2 2 (by decide)).1

/-! ## C8 — export-job expiry and cleanup -/

theorem lookup_job_delete_ne (jobs : List (String × ExportJobL))
    (jid jid' : String) (h : jid' ≠ jid) :
    lookup_job (delete_job jobs jid) jid' = lookup_job jobs jid' := by
  induction jobs with
  | nil => rfl
  | cons pr rest ih =>
    rw [delete_job] at ih ⊢
    rw [List.filter_cons]
    by_cases hp : pr.1 = jid
    · rw [if_neg (by simp [hp]), ih, lookup_job_cons,
        if_neg (by rw [hp]; exact fun hc => h hc.symm)]
    · rw [if_pos (by simp [hp]), lookup_job_cons, lookup_job_cons]
      by_cases hq : pr.1 = jid'
      · rw [if_pos hq, if_pos hq]
      · rw [if_neg hq, if_neg hq, ih]

theorem mem_delete_job (jobs : List (String × ExportJobL)) (jid : String)
    (pr : String × ExportJobL) :
    pr ∈ delete_job jobs jid ↔ pr ∈ jobs ∧ pr.1 ≠ jid := by
  simp [delete_job, List.mem_filter]

theorem keys_delete_job_nodup (jobs : List (String × ExportJobL))
    (jid : String) (h : (jobs.map Prod.fst).Nodup) :
    ((delete_job jobs jid).map Prod.fst).Nodup :=
  h.sublist ((List.filter_sublist jobs).map Prod.fst)

theorem lookup_job_of_mem_nodup (jobs : List (String × ExportJobL))
    (pr : String × ExportJobL) (hnd : (jobs.map Prod.fst).Nodup)
    (hmem : pr ∈ jobs) : lookup_job jobs pr.1 = some pr.2 := by
  induction jobs with
  | nil => simp at hmem
  | cons qr rest ih =>
    rcases List.mem_cons.mp hmem with heq | htl
    · subst heq
      simp [lookup_job_cons]
    · have hne : ¬ qr.1 = pr.1 := by
        intro hc
        have : pr.1 ∈ rest.map Prod.fst := List.mem_map_of_mem Prod.fst htl
        rw [← hc] at this
        exact (List.nodup_cons.mp hnd).1 this
      rw [lookup_job_cons, if_neg hne]
      exact ih (List.nodup_cons.mp hnd).2 htl

theorem key_injective_of_nodup (jobs : List (String × ExportJobL))
    (hnd : (jobs.map Prod.fst).Nodup) (pr qr : String × ExportJobL)
    (hp : pr ∈ jobs) (hq : qr ∈ jobs) (hk : pr.1 = qr.1) : pr = qr := by
  have h1 := lookup_job_of_mem_nodup jobs pr hnd hp
  have h2 := lookup_job_of_mem_nodup jobs qr hnd hq
  rw [hk] at h1
  rw [h1] at h2
  have h3 : pr.2 = qr.2 := Option.some.inj h2
  calc pr = (pr.1, pr.2) := rfl
    _ = (qr.1, qr.2) := by rw [hk, h3]
    _ = qr := rfl

theorem lookup_job_some_mem (jobs : List (String × ExportJobL))
    (jid : String) (j : ExportJobL) (h : lookup_job jobs jid = some j) :
    (jid, j) ∈ jobs := by
  induction jobs with
  | nil => simp [lookup_job_nil] at h
  | cons pr rest ih =>
    rw [lookup_job_cons] at h
    by_cases hp : pr.1 = jid
    · rw [if_pos hp] at h
      have hj : pr.2 = j := Option.some.inj h
      have hpr : (jid, j) = pr := by
        rw [← hp, ← hj]
      rw [hpr]
      exact List.mem_cons_self _ _
    · rw [if_neg hp] at h
      exact List.mem_cons_of_mem _ (ih h)

theorem cleanup_fold_spec (l : List String) :
    ∀ (jobs : List (String × ExportJobL)) (files : List String),
      (jobs.map Prod.fst).Nodup → l.Nodup →
      (∀ jid ∈ l, (lookup_job jobs jid).isSome) →
      (∀ pr : String × ExportJobL,
        pr ∈ (l.foldl cleanup_step (jobs, files)).1 ↔ pr ∈ jobs ∧ pr.1 ∉ l)
      ∧ (∀ p : String,
        p ∈ (l.foldl cleanup_step (jobs, files)).2 ↔
          p ∈ files ∧ ∀ jid ∈ l, ∀ j, lookup_job jobs jid = some j →
            j.file_path ≠ some p) := by
  induction l with
  | nil =>
    intro jobs files _ _ _
    constructor
    · intro pr
      simp
    · intro p
      simp
  | cons jid rest ih =>
    intro jobs files hnd hlnd hpresent
    have hjid : (lookup_job jobs jid).isSome :=
      hpresent jid (List.mem_cons_self _ _)
    obtain ⟨j0, hl0⟩ : ∃ j0, lookup_job jobs jid = some j0 :=
      Option.isSome_iff_exists.mp hjid
    have hstep : cleanup_step (jobs, files) jid =
        (delete_job jobs jid,
          match j0.file_path with
          | some p => files.filter (fun q => q ≠ p)
          | none => files) := by
      simp only [cleanup_step, hl0]
    have hfold : List.foldl cleanup_step (jobs, files) (jid :: rest) =
        List.foldl cleanup_step (cleanup_step (jobs, files) jid) rest := rfl
    have hjidrest : jid ∉ rest := (List.nodup_cons.mp hlnd).1
    have hrestnd : rest.Nodup := (List.nodup_cons.mp hlnd).2
    have hnd' : ((delete_job jobs jid).map Prod.fst).Nodup :=
      keys_delete_job_nodup jobs jid hnd
    have hlook' : ∀ jid' ∈ rest,
        lookup_job (delete_job jobs jid) jid' = lookup_job jobs jid' := by
      intro jid' hmem
      exact lookup_job_delete_ne jobs jid jid' (fun hc => hjidrest (hc ▸ hmem))
    have hpresent' : ∀ jid' ∈ rest,
        (lookup_job (delete_job jobs jid) jid').isSome := by
      intro jid' hmem
      rw [hlook' jid' hmem]
      exact hpresent jid' (List.mem_cons_of_mem _ hmem)
    set files₁ : List String :=
      (match j0.file_path with
       | some p => files.filter (fun q => q ≠ p)
       | none => files) with hfiles₁
    have hmemfiles₁ : ∀ p, p ∈ files₁ ↔ p ∈ files ∧ j0.file_path ≠ some p := by
      intro p
      rw [hfiles₁]
      cases hfp : j0.file_path with
      | none => simp
      | some q =>
        simp only [List.mem_filter]
        constructor
        · rintro ⟨hin, hne⟩
          refine ⟨hin, ?_⟩
          intro hc
          injection hc with hc
          revert hne
          simp [hc]
        · rintro ⟨hin, hne⟩
          refine ⟨hin, ?_⟩
          simp only [decide_eq_true_eq]
          intro hc
          exact hne (by rw [hc])
    obtain ⟨ihjobs, ihfiles⟩ := ih (delete_job jobs jid) files₁ hnd' hrestnd hpresent'
    rw [hfold, hstep]
    constructor
    · intro pr
      rw [ihjobs pr, mem_delete_job]
      constructor
      · rintro ⟨⟨hin, hne⟩, hnr⟩
        exact ⟨hin, by simp [List.mem_cons, hne, hnr]⟩
      · rintro ⟨hin, hnotin⟩
        simp only [List.mem_cons, not_or] at hnotin
        exact ⟨⟨hin, hnotin.1⟩, hnotin.2⟩
    · intro p
      rw [ihfiles p, hmemfiles₁ p]
      constructor
      · rintro ⟨⟨hin, hne0⟩, hrest⟩
        refine ⟨hin, ?_⟩
        intro jid' hmem j hlj
        rcases List.mem_cons.mp hmem with heq | htl
        · subst heq
          rw [hl0] at hlj
          injection hlj with hlj
          rw [← hlj]
          exact hne0
        · exact hrest jid' htl j (by rw [hlook' jid' htl]; exact hlj)
      · rintro ⟨hin, hall⟩
        refine ⟨⟨hin, hall jid (List.mem_cons_self _ _) j0 hl0⟩, ?_⟩
        intro jid' hmem j hlj
        rw [hlook' jid' hmem] at hlj
        exact hall jid' (List.mem_cons_of_mem _ hmem) j hlj

/-- C8: `is_expired` is true exactly for jobs whose `expires_at` lies in
the past, and `cleanup_expired_jobs` removes exactly the expired subset
of the active-job table — deleting each expired job backing file and
removing its record — while every non-expired job record remains, and
every file not backing an expired job remains on disk.  (Job ids are
unique: they are uuid4 dict keys.) -/
theorem cleanup_expired_spec (st : ExpState) (files : List String) (now : ℕ)
    (hnd : (st.active_jobs.map Prod.fst).Nodup) :
    (∀ job : ExportJobL,
      is_expired job now = true ↔ ∃ e, job.expires_at = some e ∧ e < now)
    ∧ (∀ pr : String × ExportJobL,
        pr ∈ (cleanup_expired_jobs st files now).1.active_jobs ↔
        pr ∈ st.active_jobs ∧ is_expired pr.2 now = false)
    ∧ (∀ pr ∈ st.active_jobs, is_expired pr.2 now = true →
        lookup_job (cleanup_expired_jobs st files now).1.active_jobs pr.1 =
          none)
    ∧ (∀ pr ∈ st.active_jobs, is_expired pr.2 now = true →
        ∀ p, pr.2.file_path = some p →
          p ∉ (cleanup_expired_jobs st files now).2)
    ∧ (∀ p ∈ files,
        (∀ pr ∈ st.active_jobs, is_expired pr.2 now = true →
          pr.2.file_path ≠ some p) →
        p ∈ (cleanup_expired_jobs st files now).2) := by
  set l : List String :=
    (st.active_jobs.filter (fun pr => is_expired pr.2 now)).map Prod.fst
    with hldef
  have hlnd : l.Nodup :=
    hnd.sublist ((List.filter_sublist st.active_jobs).map Prod.fst)
  have hpresent : ∀ jid ∈ l, (lookup_job st.active_jobs jid).isSome := by
    intro jid hjid
    rw [hldef] at hjid
    obtain ⟨pr, hprf, hpr1⟩ := List.mem_map.mp hjid
    have hin : pr ∈ st.active_jobs := List.mem_of_mem_filter hprf
    rw [← hpr1, lookup_job_of_mem_nodup st.active_jobs pr hnd hin]
    rfl
  obtain ⟨hjobs, hfiles⟩ :=
    cleanup_fold_spec l st.active_jobs files hnd hlnd hpresent
  have hre1 : (cleanup_expired_jobs st files now).1.active_jobs =
      (l.foldl cleanup_step (st.active_jobs, files)).1 := rfl
  have hre2 : (cleanup_expired_jobs st files now).2 =
      (l.foldl cleanup_step (st.active_jobs, files)).2 := rfl
  have hmem_l : ∀ pr : String × ExportJobL, pr ∈ st.active_jobs →
      is_expired pr.2 now = true → pr.1 ∈ l := by
    intro pr hin hexp
    rw [hldef]
    exact List.mem_map_of_mem Prod.fst (List.mem_filter.mpr ⟨hin, hexp⟩)
  have hl_mem : ∀ k ∈ l, ∃ qr : String × ExportJobL,
      qr ∈ st.active_jobs ∧ is_expired qr.2 now = true ∧ qr.1 = k := by
    intro k hk
    rw [hldef] at hk
    obtain ⟨qr, hqf, hq1⟩ := List.mem_map.mp hk
    exact ⟨qr, List.mem_of_mem_filter hqf, (List.mem_filter.mp hqf).2, hq1⟩
  refine ⟨?_, ?_, ?_, ?_, ?_⟩
  · intro job
    cases h : job.expires_at with
    | none => simp [is_expired, h]
    | some e => simp [is_expired, h]
  · intro pr
    rw [hre1, hjobs pr]
    constructor
    · rintro ⟨hin, hnot⟩
      refine ⟨hin, ?_⟩
      by_cases hexp : is_expired pr.2 now = true
      · exact absurd (hmem_l pr hin hexp) hnot
      · simpa using hexp
    · rintro ⟨hin, hfalse⟩
      refine ⟨hin, ?_⟩
      intro hmem
      obtain ⟨qr, hqin, hqexp, hq1⟩ := hl_mem pr.1 hmem
      have : qr = pr := key_injective_of_nodup st.active_jobs hnd qr pr
        hqin hin hq1
      rw [this] at hqexp
      rw [hqexp] at hfalse
      simp at hfalse
  · intro pr hin hexp
    cases hl : lookup_job (cleanup_expired_jobs st files now).1.active_jobs
        pr.1 with
    | none => rfl
    | some j =>
      exfalso
      rw [hre1] at hl
      have hmem := lookup_job_some_mem _ _ _ hl
      have := (hjobs (pr.1, j)).mp hmem
      exact this.2 (hmem_l pr hin hexp)
  · intro pr hin hexp p hfp hmem
    rw [hre2] at hmem
    have := ((hfiles p).mp hmem).2 pr.1 (hmem_l pr hin hexp) pr.2
      (lookup_job_of_mem_nodup st.active_jobs pr hnd hin)
    exact this hfp
  · intro p hin hsafe
    rw [hre2]
    refine (hfiles p).mpr ⟨hin, ?_⟩
    intro jid hjid j hlj
    obtain ⟨qr, hqin, hqexp, hq1⟩ := hl_mem jid hjid
    have hlq := lookup_job_of_mem_nodup st.active_jobs qr hnd hqin
    rw [hq1] at hlq
    rw [hlq] at hlj
    have : qr.2 = j := Option.some.inj hlj
    rw [← this]
    exact hsafe qr hqin hqexp

/-- Witness for C8: in a table with one expired and one live job, the
live job survives cleanup (membership characterisation evaluated at the
live entry). -/
theorem cleanup_expired_spec_witness :
    (("b", { init_export_job "b" ExportFormat.kml ["p"] 0 with expires_at := some 100, file_path := some "fb" }) ∈ (cleanup_expired_jobs ⟨[("a", { init_export_job "a" ExportFormat.kml ["p"] 0 with expires_at := some 10, file_path := some "fa" }), ("b", { init_export_job "b" ExportFormat.kml ["p"] 0 with expires_at := some 100, file_path := some "fb" })], []⟩ ["fa", "fb"] 50).1.active_jobs ↔
      ("b", { init_export_job "b" ExportFormat.kml ["p"] 0 with expires_at := some 100, file_path := some "fb" }) ∈ [("a", { init_export_job "a" ExportFormat.kml ["p"] 0 with expires_at := some 10, file_path := some "fa" }), ("b", { init_export_job "b" ExportFormat.kml ["p"] 0 with expires_at := some 100, file_path := some "fb" })] ∧ is_expired { init_export_job "b" ExportFormat.kml ["p"] 0 with expires_at := some 100, file_path := some "fb" } 50 = false) :=
  (cleanup_expired_spec ⟨[("a", { init_export_job "a" ExportFormat.kml ["p"] 0 with expires_at := some 10, file_path := some "fa" }), ("b", { init_export_job "b" ExportFormat.kml ["p"] 0 with expires_at := some 100, file_path := some "fb" })], []⟩ ["fa", "fb"] 50 (by decide)).2.1
    ("b", { init_export_job "b" ExportFormat.kml ["p"] 0 with expires_at := some 100, file_path := some "fb" })

/-! ## C9 — PHOTOS_ONLY export (code bug) -/

/-- C9 (bug evaluation): a PHOTOS_ONLY export job with one resolvable
photo builds the photos-only ZIP (raw image under its sanitized name, no
KML entry), but then `_upload_export_file` reads the never-assigned
`export_directory` attribute (export_service.py line 409) and raises;
the exception is caught and the job is marked `failed` with no file
handle — it never reaches `completed` as the claim requires. -/
theorem photos_export_bug :
    (process_export_job [⟨"p1", "f1.jpg", "My Photo 1.jpg", "h1"⟩]
      (fun _ => true) true "tmp.zip" 100
      (init_export_job "j1" ExportFormat.photosOnly ["p1"] 0)).1.status =
        .failed
    ∧ (process_export_job [⟨"p1", "f1.jpg", "My Photo 1.jpg", "h1"⟩]
        (fun _ => true) true "tmp.zip" 100
        (init_export_job "j1" ExportFormat.photosOnly ["p1"] 0)).1.error_message
      = some "Photos export failed: AttributeError: ExportService object has no attribute export_directory"
    ∧ (process_export_job [⟨"p1", "f1.jpg", "My Photo 1.jpg", "h1"⟩]
        (fun _ => true) true "tmp.zip" 100
        (init_export_job "j1" ExportFormat.photosOnly ["p1"] 0)).1.file_path
      = none
    ∧ (process_export_job [⟨"p1", "f1.jpg", "My Photo 1.jpg", "h1"⟩]
        (fun _ => true) true "tmp.zip" 100
        (init_export_job "j1" ExportFormat.photosOnly ["p1"] 0)).2 =
      ["My_Photo_1.jpg"]
    ∧ "photos.kml" ∉ (process_export_job [⟨"p1", "f1.jpg", "My Photo 1.jpg", "h1"⟩]
        (fun _ => true) true "tmp.zip" 100
        (init_export_job "j1" ExportFormat.photosOnly ["p1"] 0)).2 := by
  refine ⟨rfl, rfl, rfl, ?_, ?_⟩ <;> decide

/-! ## C7 — export job status lifecycle -/

/-- Counterexample to C7 as stated: a freshly created job (with one
resolvable photo, KML format) is created with status `pending` and is
marked `processing` directly when consumed — the status `queued` is never
assigned anywhere in the service, so no job ever passes through
`queued` before `processing`. -/
theorem export_lifecycle_counterexample :
    create_export_job [⟨"p1", "f1", "o1", "h1"⟩] ⟨[], []⟩ ["p1"]
        ExportFormat.kml "j1" 0 =
      .ok (init_export_job "j1" ExportFormat.kml ["p1"] 0,
        ⟨[("j1", init_export_job "j1" ExportFormat.kml ["p1"] 0)], ["j1"]⟩)
    ∧ (init_export_job "j1" ExportFormat.kml ["p1"] 0).status = .pending
    ∧ lookup_job (ExpState.active_jobs (consume_step [⟨"p1", "f1", "o1", "h1"⟩]
        (fun _ => true) true "t.kml" 10
        ⟨[("j1", init_export_job "j1" ExportFormat.kml ["p1"] 0)], ["j1"]⟩))
        "j1" =
      some (mark_completed
        (mark_started (init_export_job "j1" ExportFormat.kml ["p1"] 0))
        "t.kml" 10)
    ∧ [(init_export_job "j1" ExportFormat.kml ["p1"] 0).status,
        (mark_started (init_export_job "j1" ExportFormat.kml ["p1"] 0)).status,
        (mark_completed
          (mark_started (init_export_job "j1" ExportFormat.kml ["p1"] 0))
          "t.kml" 10).status] =
      [.pending, .processing, .completed]
    ∧ JobStatus.queued ∉
        [(init_export_job "j1" ExportFormat.kml ["p1"] 0).status,
         (mark_started (init_export_job "j1" ExportFormat.kml ["p1"] 0)).status,
         (mark_completed
           (mark_started (init_export_job "j1" ExportFormat.kml ["p1"] 0))
           "t.kml" 10).status] := by
  refine ⟨rfl, rfl, rfl, rfl, ?_⟩
  decide

theorem generate_simple_export_status (genOk : Bool) (tmpPath : String)
    (size : ℕ) (name : String) (job : ExportJobL) :
    (generate_simple_export genOk tmpPath size name job).status = .completed ∨
    (generate_simple_export genOk tmpPath size name job).status = .failed := by
  unfold generate_simple_export
  by_cases hg : genOk
  · rw [if_pos hg]
    left
    rfl
  · rw [if_neg hg]
    right
    rfl

theorem generate_photos_export_status (fetchOk : PhotoRec → Bool)
    (job : ExportJobL) (photos : List PhotoRec) :
    (generate_photos_export fetchOk job photos).1.status = .failed := by
  simp [generate_photos_export, upload_export_file, export_directory,
    mark_failed]

/-- C7 (amended): export jobs are created with status `pending` (the
value `queued` exists in the status vocabulary but is never assigned by
any operation) and move directly to `processing` when consumed, ending
`completed` or `failed`; `cancel_job` succeeds exactly from the
non-terminal statuses `pending`, `queued`, `processing` and then sets
`cancelled`; transitions are one-directional: a job in a terminal status
(`completed`/`failed`/`cancelled`) is never changed by `cancel_job` or by
the queue consumer (under the queue invariant, which every operation
preserves). -/
theorem export_lifecycle (db : List PhotoRec) (fetchOk : PhotoRec → Bool)
    (genOk : Bool) (tmpPath : String) (size : ℕ) (st : ExpState)
    (jid : String) (job : ExportJobL) :
    (∀ photoIds fmt now job' st',
        create_export_job db st photoIds fmt jid now = .ok (job', st') →
        job'.status = .pending)
    ∧ ((mark_started job).status = .processing)
    ∧ ((process_export_job db fetchOk genOk tmpPath size job).1.status =
          .completed ∨
       (process_export_job db fetchOk genOk tmpPath size job).1.status =
          .failed)
    ∧ (∀ (p : String) (s : ℕ) (m : String) (pc : ℕ),
        (mark_completed job p s).status ≠ .queued
        ∧ (mark_failed job m).status ≠ .queued
        ∧ (update_progress job pc).status = job.status)
    ∧ (lookup_job st.active_jobs jid = some job →
        ((cancel_job st jid).1 = true ↔
          (job.status = .pending ∨ job.status = .queued ∨
            job.status = .processing)))
    ∧ (lookup_job st.active_jobs jid = some job →
        (cancel_job st jid).1 = true →
        ∃ job', lookup_job (cancel_job st jid).2.active_jobs jid = some job'
          ∧ job'.status = .cancelled)
    ∧ (isTerminal job.status = true →
        lookup_job st.active_jobs jid = some job →
        lookup_job (cancel_job st jid).2.active_jobs jid = some job)
    ∧ (isTerminal job.status = true →
        lookup_job st.active_jobs jid = some job →
        QueueInv st →
        lookup_job
          (consume_step db fetchOk genOk tmpPath size st).active_jobs jid =
          some job)
    ∧ (QueueInv st → ∀ photoIds fmt now job' st',
        create_export_job db st photoIds fmt jid now = .ok (job', st') →
        QueueInv st')
    ∧ (QueueInv st → QueueInv (cancel_job st jid).2)
    ∧ (QueueInv st → st.job_queue.Nodup →
        QueueInv (consume_step db fetchOk genOk tmpPath size st)) := by
  refine ⟨?_, rfl, ?_, ?_, ?_, ?_, ?_, ?_, ?_, ?_, ?_⟩
  · intro photoIds fmt now job' st' hok
    by_cases hv : validate_photo_ids db photoIds = []
    · simp [create_export_job, hv] at hok
    · simp only [create_export_job, hv, if_neg, ite_false, Except.ok.injEq,
        Prod.mk.injEq] at hok
      rw [← hok.1]
      rfl
  · unfold process_export_job
    by_cases hp : get_photos_for_export db job.photo_ids = []
    · rw [if_pos hp]
      right
      rfl
    · rw [if_neg hp]
      cases hty : job.export_type
      · exact generate_simple_export_status genOk tmpPath size "KML"
          (mark_started job)
      · exact generate_simple_export_status genOk tmpPath size "KMZ"
          (mark_started job)
      · exact generate_simple_export_status genOk tmpPath size "ZIP"
          (mark_started job)
      · exact Or.inr (generate_photos_export_status fetchOk
          (mark_started job) (get_photos_for_export db job.photo_ids))
  · intro p s m pc
    refine ⟨by simp [mark_completed], by simp [mark_failed], ?_⟩
    simp only [update_progress]
    split <;> rfl
  · intro hl
    simp only [cancel_job, hl]
    split
    · rename_i hcond
      simpa using hcond
    · rename_i hcond
      simpa using hcond
  · intro hl hc
    simp only [cancel_job, hl] at hc ⊢
    split at hc
    · rename_i hcond
      split
      · exact ⟨_, lookup_job_set_job_self _ _ _, rfl⟩
      · rename_i hcond2
        exact absurd hcond hcond2
    · simp at hc
  · intro hterm hl
    have hcond : ¬ (job.status = .pending ∨ job.status = .queued ∨
        job.status = .processing) := by
      cases h : job.status <;> rw [h] at hterm <;>
        simp [isTerminal] at hterm ⊢
    simp only [cancel_job, hl]
    rw [if_neg hcond]
    exact hl
  · intro hterm hl hinv
    cases hq : st.job_queue with
    | nil =>
      simp only [consume_step, hq]
      exact hl
    | cons h rest =>
      simp only [consume_step, hq]
      split
      · exact hl
      · rename_i jobH hlh
        split
        · exact hl
        · rename_i hcan
          by_cases hjid : h = jid
          · exfalso
            subst hjid
            rw [hl] at hlh
            have hjj : job = jobH := Option.some.inj hlh
            have := hinv h (by rw [hq]; exact List.mem_cons_self _ _) job hl
            rcases this with hps | hc
            · rw [hps] at hterm
              simp [isTerminal] at hterm
            · exact hcan (by rw [← hjj]; exact hc)
          · have heq : lookup_job (set_job st.active_jobs h
                (process_export_job db fetchOk genOk tmpPath size jobH).1)
                jid = lookup_job st.active_jobs jid :=
              lookup_job_set_job_ne _ _ _ _ (fun hc => hjid hc.symm)
            exact heq.trans hl
  · intro hinv photoIds fmt now job' st' hok
    by_cases hv : validate_photo_ids db photoIds = []
    · simp [create_export_job, hv] at hok
    · simp only [create_export_job, hv, if_neg, ite_false, Except.ok.injEq,
        Prod.mk.injEq] at hok
      obtain ⟨hjob, hst⟩ := hok
      intro jid' hjid' j hlj
      rw [← hst] at hjid' hlj
      simp only at hjid' hlj
      by_cases hj : jid' = jid
      · subst hj
        rw [lookup_job_set_job_self] at hlj
        left
        rw [← Option.some.inj hlj]
        rfl
      · rw [lookup_job_set_job_ne _ _ _ _ hj] at hlj
        have hmemq : jid' ∈ st.job_queue := by
          rcases List.mem_append.mp hjid' with hmq | hmq
          · exact hmq
          · simp at hmq
            exact absurd hmq hj
        exact hinv jid' hmemq j hlj
  · intro hinv
    cases hl : lookup_job st.active_jobs jid with
    | none =>
      simp only [cancel_job, hl]
      exact hinv
    | some jobC =>
      simp only [cancel_job, hl]
      split
      · intro jid' hjid' j hlj
        simp only at hjid' hlj
        by_cases hj : jid' = jid
        · subst hj
          rw [lookup_job_set_job_self] at hlj
          right
          rw [← Option.some.inj hlj]
        · rw [lookup_job_set_job_ne _ _ _ _ hj] at hlj
          exact hinv jid' hjid' j hlj
      · exact hinv
  · intro hinv hnodup
    cases hq : st.job_queue with
    | nil =>
      simp only [consume_step, hq]
      exact hinv
    | cons h rest =>
      simp only [consume_step, hq]
      have hsub : ∀ jid' ∈ rest, jid' ∈ st.job_queue := by
        intro jid' hm
        rw [hq]
        exact List.mem_cons_of_mem _ hm
      split
      · intro jid' hjid' j hlj
        exact hinv jid' (hsub jid' hjid') j hlj
      · rename_i jobH hlh
        split
        · intro jid' hjid' j hlj
          exact hinv jid' (hsub jid' hjid') j hlj
        · intro jid' hjid' j hlj
          simp only at hjid' hlj
          have hhrest : h ∉ rest := by
            have hnd2 := hnodup
            rw [hq] at hnd2
            exact (List.nodup_cons.mp hnd2).1
          have hne : jid' ≠ h := fun hc => hhrest (hc ▸ hjid')
          have heq : lookup_job (set_job st.active_jobs h
              (process_export_job db fetchOk genOk tmpPath size jobH).1)
              jid' = lookup_job st.active_jobs jid' :=
            lookup_job_set_job_ne _ _ _ _ hne
          rw [heq] at hlj
          exact hinv jid' (hsub jid' hjid') j hlj

/-- Witness for C7: in a one-job table the cancel-success
characterisation holds for the stored pending job (and its status is
indeed `pending`, so cancellation succeeds). -/
theorem export_lifecycle_witness :
    ((cancel_job ⟨[("j1", init_export_job "j1" ExportFormat.kml ["p"] 0)], ["j1"]⟩ "j1").1 = true ↔
      ((init_export_job "j1" ExportFormat.kml ["p"] 0).status = .pending ∨
       (init_export_job "j1" ExportFormat.kml ["p"] 0).status = .queued ∨
       (init_export_job "j1" ExportFormat.kml ["p"] 0).status = .processing)) :=
  (export_lifecycle [] (fun _ => true) true "t" 0
    ⟨[("j1", init_export_job "j1" ExportFormat.kml ["p"] 0)], ["j1"]⟩ "j1"
    (init_export_job "j1" ExportFormat.kml ["p"] 0)).2.2.2.2.1 rfl

end PhotoAPI
